import Mathlib

/-!
Shallow embedding of `src/architecture.rs`: the state model of a MIPS32
(PlayStation 1 class) CPU emulator core.  The Rust source defines three
structures — `Memory` (a fixed array of `5 * 1024 * 1024` 32-bit words with
bounds-checked read/write), `BIOS` (a 512 KB firmware image loaded from a
file, with little-endian word extraction), and `CPU` (pc, 32 general
registers, hi, lo, and an owned `Memory`).

Modelling conventions:
* `u32` values are `Nat`; where a claim speaks of "32-bit values" the
  theorem carries the hypothesis `v < 2 ^ 32`.  `wrapping_add` becomes
  `(x + y) % 2 ^ 32`.
* The fixed array `[u32; MEMORY_SIZE]` and the byte vector `Vec<u8>` are
  modelled as an index function together (for the vector) with an explicit
  length, so that concrete instances evaluate without building
  multi-megabyte literals.
* A Rust `panic!` is a distinguished result constructor (`WriteResult.fatal`
  carrying the formatted message, `BiosReadResult.indexOob` for a slice
  index out of bounds), since a panic is observable program behaviour the
  claims talk about.
* `fs::File::open(path)?` is modelled by taking the open's outcome
  (`Except IoError File`) as the argument of `BIOS.new_from_file`; a `File`
  is its byte contents.  `Read::take(n).read_to_end` yields the first
  `min (f.len) n` bytes.
* `Memory::read` and `BIOS::read_word` take `&mut self` in the source but
  never mutate; they are embedded as pure functions.
-/

/-- `BIOS_START`: the BIOS memory start address, `0xbfc00000`. -/
def BIOS_START : Nat := 0xbfc00000

/-- `BIOS_FILE_SIZE`: the size of a BIOS file, exactly 512 KB. -/
def BIOS_FILE_SIZE : Nat := 512 * 1024

/-- `INSTRUCTION_SIZE`: size in bytes of a MIPS instruction, always 4. -/
def INSTRUCTION_SIZE : Nat := 4

/-- `NUM_REGISTERS`: number of general purpose registers. -/
def NUM_REGISTERS : Nat := 32

/-- `MEMORY_SIZE`: capacity of the memory, in 32-bit words. -/
def MEMORY_SIZE : Nat := 5 * 1024 * 1024

/-- `Memory { data: [u32; MEMORY_SIZE] }`, the word store, as an index
function; only indices `< MEMORY_SIZE` are ever read or written by the
operations below, mirroring the fixed array bounds. -/
structure Memory where
  data : Nat → Nat

/-- Outcome of `Memory::write`: either the updated memory, or the `panic!`
with its formatted message. -/
inductive WriteResult where
  | ok (m : Memory)
  | fatal (msg : String)

/-- `Memory::new_empty`: a new memory with all contents set to 0. -/
def Memory.new_empty : Memory := ⟨fun _ => 0⟩

/-- `Memory::clear`: resets all memory contents to 0
(`self.data = [0_u32; MEMORY_SIZE]`). -/
def Memory.clear (_m : Memory) : Memory := ⟨fun _ => 0⟩

/-- `Memory::write`: writes `value` to `addr` if in range; `panic!`s
otherwise with a message naming the valid range and the offending
address. -/
def Memory.write (m : Memory) (addr : Nat) (value : Nat) : WriteResult :=
  if addr < MEMORY_SIZE then
    .ok ⟨fun a => if a = addr then value else m.data a⟩
  else
    .fatal ("Memory write out of bounds. Expected address between 0 and "
      ++ toString (MEMORY_SIZE - 1) ++ ", got " ++ toString addr ++ ".")

/-- `Memory::read`: `Some(self.data[addr])` if `addr < MEMORY_SIZE`,
`None` otherwise. -/
def Memory.read (m : Memory) (addr : Nat) : Option Nat :=
  if addr < MEMORY_SIZE then some (m.data addr) else none

/-- The contents of a successfully opened file: a byte sequence of length
`len` given by the index function `bytes`. -/
structure File where
  len : Nat
  bytes : Nat → Nat

/-- The kind of an `io::Error` (the kinds the source distinguishes). -/
inductive ErrorKind where
  | notFound
  | permissionDenied
  | invalidInput
  | other
  deriving DecidableEq

/-- An `io::Error`: a kind plus a message. -/
structure IoError where
  kind : ErrorKind
  msg : String
  deriving DecidableEq

/-- `BIOS { data: Vec<u8> }`: the loaded firmware image, as an index
function plus the vector's length. -/
structure BIOS where
  data : Nat → Nat
  len : Nat

/-- The error built by `new_from_file` when fewer than `BIOS_FILE_SIZE`
bytes were read: `io::Error::new(InvalidInput, "BIOS file must be exactly
512 KB big")`. -/
def sizeMismatchError : IoError :=
  ⟨.invalidInput, "BIOS file must be exactly 512 KB big"⟩

/-- `BIOS::new_from_file`: propagates a failed `File::open` via `?`;
otherwise reads at most `BIOS_FILE_SIZE` bytes (`take`/`read_to_end`) and
succeeds iff exactly `BIOS_FILE_SIZE` bytes were obtained. -/
def BIOS.new_from_file (openResult : Except IoError File) :
    Except IoError BIOS :=
  match openResult with
  | .error e => .error e
  | .ok f =>
    let n := min f.len BIOS_FILE_SIZE
    if n = BIOS_FILE_SIZE then
      .ok ⟨fun i => if i < n then f.bytes i else 0, n⟩
    else
      .error sizeMismatchError

/-- Outcome of `BIOS::read_word`: `Some(word)`, `None`, or the panic from a
slice index out of bounds (`self.data[i]` with `i >= self.data.len()`). -/
inductive BiosReadResult where
  | value (w : Nat)
  | absent
  | indexOob
  deriving DecidableEq

/-- `BIOS::read_word`: under the guard `offset + 4 >= BIOS_FILE_SIZE` it
indexes `data[offset] ..= data[offset + 3]` (panicking if `offset + 3`
is not below the vector's length) and assembles the little-endian word
`b0 | b1 << 8 | b2 << 16 | b3 << 24`; otherwise returns `None`. -/
def BIOS.read_word (b : BIOS) (offset : Nat) : BiosReadResult :=
  if BIOS_FILE_SIZE ≤ offset + 4 then
    if offset + 3 < b.len then
      .value (b.data offset ||| (b.data (offset + 1) <<< 8) |||
        (b.data (offset + 2) <<< 16) ||| (b.data (offset + 3) <<< 24))
    else
      .indexOob
  else
    .absent

/-- `CPU`: program counter, general purpose registers, hi, lo, and the
owned memory. -/
structure CPU where
  pc : Nat
  gprs : Fin NUM_REGISTERS → Nat
  hi : Nat
  lo : Nat
  memory : Memory

/-- `CPU::new`: pc at the reset vector, registers/hi/lo zero, empty
memory. -/
def CPU.new : CPU := ⟨BIOS_START, fun _ => 0, 0, 0, Memory.new_empty⟩

/-- `CPU::clear_registers`: `self.gprs = [0; NUM_REGISTERS]`. -/
def CPU.clear_registers (c : CPU) : CPU :=
  ⟨c.pc, fun _ => 0, c.hi, c.lo, c.memory⟩

/-- `CPU::increment_pc`: `self.pc = self.pc.wrapping_add(INSTRUCTION_SIZE)`. -/
def CPU.increment_pc (c : CPU) : CPU :=
  ⟨(c.pc + INSTRUCTION_SIZE) % 2 ^ 32, c.gprs, c.hi, c.lo, c.memory⟩

/-- An all-zero firmware image of the valid length, used to instantiate
theorems about `read_word` at concrete offsets. -/
def zeroBios : BIOS := ⟨fun _ => 0, BIOS_FILE_SIZE⟩

/-- A file of exactly `BIOS_FILE_SIZE` bytes whose first four bytes are
`1, 2, 3, 4` (little-endian word `0x04030201`). -/
def sampleFile : File := ⟨BIOS_FILE_SIZE, fun i => if i < 4 then i + 1 else 0⟩

/-- A file of `600 * 1024` bytes. -/
def bigFile : File := ⟨600 * 1024, fun i => i % 256⟩

/-- A CPU whose pc sits at the top of the 32-bit address space. -/
def pcAtTop : CPU := ⟨0xfffffffc, fun _ => 0, 0, 0, Memory.new_empty⟩

/-- C1: for every in-range address `a` and every 32-bit value `v`,
`Memory::write(a, v)` succeeds and the subsequent `Memory::read(a)`
returns `Some(v)`. -/
theorem memory_write_read_roundtrip (m : Memory) (a v : Nat)
    (ha : a < MEMORY_SIZE) (_hv : v < 2 ^ 32) :
    ∃ m', m.write a v = .ok m' ∧ m'.read a = some v := by
  refine ⟨⟨fun x => if x = a then v else m.data x⟩, ?_, ?_⟩
  · simp [Memory.write, ha]
  · simp [Memory.read, ha]

theorem memory_write_read_roundtrip_holds :
    0 < MEMORY_SIZE ∧ 7 < 2 ^ 32 ∧
      ∃ m', Memory.new_empty.write 0 7 = .ok m' ∧ m'.read 0 = some 7 :=
  ⟨by decide, by decide,
    memory_write_read_roundtrip Memory.new_empty 0 7 (by decide) (by decide)⟩

/-- C2: for every out-of-range address, `read` returns `None` (recoverable
absence; `read` is pure, so memory is unchanged) while `write` panics
with a message reporting the valid range `0 ..= MEMORY_SIZE - 1` and the
offending address. -/
theorem memory_oob_read_write_asymmetry (m : Memory) (a v : Nat)
    (h : MEMORY_SIZE ≤ a) :
    m.read a = none ∧
      m.write a v = .fatal
        ("Memory write out of bounds. Expected address between 0 and "
          ++ toString (MEMORY_SIZE - 1) ++ ", got " ++ toString a ++ ".") := by
  constructor
  · simp [Memory.read, Nat.not_lt.mpr h]
  · simp [Memory.write, Nat.not_lt.mpr h]

theorem memory_oob_read_write_asymmetry_holds :
    MEMORY_SIZE ≤ 5242880 ∧
      (Memory.new_empty.read 5242880 = none ∧
        Memory.new_empty.write 5242880 0 = .fatal
          ("Memory write out of bounds. Expected address between 0 and "
            ++ toString (MEMORY_SIZE - 1) ++ ", got "
            ++ toString 5242880 ++ ".")) :=
  ⟨by decide,
    memory_oob_read_write_asymmetry Memory.new_empty 5242880 0 (by decide)⟩

/-- C3 counterexample: at `offset = BIOS_FILE_SIZE - 3` the guard
`offset + 4 >= BIOS_FILE_SIZE` holds, yet `read_word` does not return the
decoded word — the index `offset + 3` is past the 512 KB buffer and the
access panics — refuting "returns the decoded word exactly when
`offset + 4 >= 512*1024`". -/
theorem bios_read_word_near_end_panics :
    BIOS_FILE_SIZE ≤ (BIOS_FILE_SIZE - 3) + 4 ∧
      zeroBios.len = BIOS_FILE_SIZE ∧
      zeroBios.read_word (BIOS_FILE_SIZE - 3) = .indexOob ∧
      ∀ w, zeroBios.read_word (BIOS_FILE_SIZE - 3) ≠ .value w := by
  refine ⟨by decide, rfl, by decide, ?_⟩
  intro w hw
  rw [show zeroBios.read_word (BIOS_FILE_SIZE - 3) = .indexOob from by decide]
    at hw
  exact BiosReadResult.noConfusion hw

/-- C3 (amended): for a BIOS of the valid length, `read_word` returns
`None` whenever `offset + 4 < BIOS_FILE_SIZE`; it returns the decoded
little-endian word at `offset = BIOS_FILE_SIZE - 4` (the single offset
where the guard holds and all four byte accesses are in bounds); and for
every larger offset the guard holds but the byte access panics. -/
theorem bios_read_word_guard_behavior (b : BIOS)
    (hb : b.len = BIOS_FILE_SIZE) (offset : Nat) :
    (offset + 4 < BIOS_FILE_SIZE → b.read_word offset = .absent) ∧
    (offset = BIOS_FILE_SIZE - 4 →
      b.read_word offset = .value (b.data offset |||
        (b.data (offset + 1) <<< 8) ||| (b.data (offset + 2) <<< 16) |||
        (b.data (offset + 3) <<< 24))) ∧
    (BIOS_FILE_SIZE - 4 < offset → b.read_word offset = .indexOob) := by
  refine ⟨?_, ?_, ?_⟩
  · intro h
    rw [BIOS.read_word, if_neg (by omega)]
  · intro h
    subst h
    rw [BIOS.read_word, if_pos (by simp [BIOS_FILE_SIZE]),
      if_pos (by rw [hb]; simp [BIOS_FILE_SIZE])]
  · intro h
    have hsize : 4 ≤ BIOS_FILE_SIZE := by simp [BIOS_FILE_SIZE]
    rw [BIOS.read_word, if_pos (by omega), if_neg (by omega)]

theorem bios_read_word_guard_behavior_holds :
    zeroBios.len = BIOS_FILE_SIZE ∧
      zeroBios.read_word (BIOS_FILE_SIZE - 4) = .value
        (zeroBios.data (BIOS_FILE_SIZE - 4) |||
          (zeroBios.data (BIOS_FILE_SIZE - 4 + 1) <<< 8) |||
          (zeroBios.data (BIOS_FILE_SIZE - 4 + 2) <<< 16) |||
          (zeroBios.data (BIOS_FILE_SIZE - 4 + 3) <<< 24)) :=
  ⟨rfl, (bios_read_word_guard_behavior zeroBios rfl (BIOS_FILE_SIZE - 4)).2.1
    rfl⟩

/-- C4 (code bug, evaluated at the failing input): loading a 512 KB file
whose first four bytes are `1, 2, 3, 4` succeeds, yet `read_word(0)`
returns `None` instead of the little-endian word `0x04030201` the claim
(and the function's stated purpose) call for — the guard
`offset + 4 >= BIOS_FILE_SIZE` rejects every interior offset. -/
theorem bios_read_word_zero_is_absent :
    ∃ b, BIOS.new_from_file (.ok sampleFile) = .ok b ∧
      b.len = BIOS_FILE_SIZE ∧
      b.read_word 0 = .absent ∧
      (sampleFile.bytes 0 ||| (sampleFile.bytes 1 <<< 8) |||
        (sampleFile.bytes 2 <<< 16) ||| (sampleFile.bytes 3 <<< 24))
        = 0x04030201 ∧
      BiosReadResult.absent ≠ .value 0x04030201 := by
  refine ⟨⟨fun i => if i < min sampleFile.len BIOS_FILE_SIZE
      then sampleFile.bytes i else 0, min sampleFile.len BIOS_FILE_SIZE⟩,
    ?_, by decide, by decide, by decide, by decide⟩
  rw [BIOS.new_from_file]
  simp [sampleFile, BIOS_FILE_SIZE]

/-- C5: `CPU::new()` yields `pc = 0xbfc00000`, all 32 general registers 0,
`hi = 0`, `lo = 0`, and a memory every in-range word of which reads as 0;
the constructor is total (no failure mode). -/
theorem cpu_new_initial_state :
    CPU.new.pc = 0xbfc00000 ∧
      (∀ i : Fin NUM_REGISTERS, CPU.new.gprs i = 0) ∧
      CPU.new.hi = 0 ∧ CPU.new.lo = 0 ∧
      ∀ a, a < MEMORY_SIZE → CPU.new.memory.read a = some 0 := by
  refine ⟨rfl, fun _ => rfl, rfl, rfl, fun a ha => ?_⟩
  simp [CPU.new, Memory.new_empty, Memory.read, ha]

theorem cpu_new_initial_state_holds :
    0 < MEMORY_SIZE ∧ CPU.new.memory.read 0 = some 0 :=
  ⟨by decide, cpu_new_initial_state.2.2.2.2 0 (by decide)⟩

/-- C6: `increment_pc` sets the pc to `(pc + 4) mod 2^32`; in particular
from `pc = 0xfffffffc` it wraps to 0 instead of failing. -/
theorem cpu_increment_pc_wraps (c : CPU) :
    c.increment_pc.pc = (c.pc + 4) % 2 ^ 32 ∧
      (c.pc = 0xfffffffc → c.increment_pc.pc = 0) := by
  constructor
  · rfl
  · intro h
    simp [CPU.increment_pc, h, INSTRUCTION_SIZE]

theorem cpu_increment_pc_wraps_holds :
    pcAtTop.pc = 0xfffffffc ∧ pcAtTop.increment_pc.pc = 0 :=
  ⟨rfl, (cpu_increment_pc_wraps pcAtTop).2 rfl⟩

/-- C7: `clear_registers` zeroes all 32 general purpose registers and
leaves pc, hi, lo and the entire memory unchanged. -/
theorem cpu_clear_registers_frame (c : CPU) :
    (∀ i : Fin NUM_REGISTERS, c.clear_registers.gprs i = 0) ∧
      c.clear_registers.pc = c.pc ∧
      c.clear_registers.hi = c.hi ∧
      c.clear_registers.lo = c.lo ∧
      c.clear_registers.memory = c.memory :=
  ⟨fun _ => rfl, rfl, rfl, rfl, rfl⟩

/-- C8: `new_from_file` propagates a failed open unchanged (distinct from
the size-mismatch error whenever its kind is not `InvalidInput`); a file
yielding fewer than `BIOS_FILE_SIZE` bytes produces the `InvalidInput`
size-mismatch error; a file of at least `BIOS_FILE_SIZE` bytes succeeds,
retaining exactly the first `BIOS_FILE_SIZE` bytes; and every successful
construction has the full length (never a partial BIOS). -/
theorem bios_new_from_file_contract (e : IoError) (f : File) :
    BIOS.new_from_file (.error e) = .error e ∧
      (e.kind ≠ .invalidInput → e ≠ sizeMismatchError) ∧
      (f.len < BIOS_FILE_SIZE →
        BIOS.new_from_file (.ok f) = .error sizeMismatchError) ∧
      (BIOS_FILE_SIZE ≤ f.len →
        ∃ b, BIOS.new_from_file (.ok f) = .ok b ∧
          b.len = BIOS_FILE_SIZE ∧
          ∀ i, i < BIOS_FILE_SIZE → b.data i = f.bytes i) ∧
      sizeMismatchError.kind = .invalidInput ∧
      (∀ r b, BIOS.new_from_file r = .ok b → b.len = BIOS_FILE_SIZE) := by
  refine ⟨rfl, ?_, ?_, ?_, rfl, ?_⟩
  · intro hk he
    exact hk (by rw [he]; rfl)
  · intro h
    simp only [BIOS.new_from_file]
    rw [if_neg (by omega)]
  · intro h
    have hmin : min f.len BIOS_FILE_SIZE = BIOS_FILE_SIZE := min_eq_right h
    refine ⟨⟨fun i => if i < min f.len BIOS_FILE_SIZE then f.bytes i else 0,
      min f.len BIOS_FILE_SIZE⟩, ?_, hmin, ?_⟩
    · simp only [BIOS.new_from_file]
      rw [if_pos hmin]
    · intro i hi
      simp only [hmin, if_pos hi]
  · intro r b hb
    match r with
    | .error e' =>
      simp only [BIOS.new_from_file] at hb
      cases hb
    | .ok f' =>
      simp only [BIOS.new_from_file] at hb
      by_cases hn : min f'.len BIOS_FILE_SIZE = BIOS_FILE_SIZE
      · rw [if_pos hn] at hb
        cases hb
        exact hn
      · rw [if_neg hn] at hb
        cases hb

theorem bios_new_from_file_contract_holds :
    BIOS_FILE_SIZE ≤ bigFile.len ∧
      ∃ b, BIOS.new_from_file (.ok bigFile) = .ok b ∧
        b.len = BIOS_FILE_SIZE ∧
        ∀ i, i < BIOS_FILE_SIZE → b.data i = bigFile.bytes i :=
  ⟨by decide,
    (bios_new_from_file_contract ⟨.notFound, ""⟩ bigFile).2.2.2.1 (by decide)⟩

/-- C9: `Memory::clear()` followed by `read(a)` returns `Some 0` for every
in-range address `a`; all prior contents are lost. -/
theorem memory_clear_then_read_zero (m : Memory) (a : Nat)
    (h : a < MEMORY_SIZE) :
    m.clear.read a = some 0 := by
  simp [Memory.clear, Memory.read, h]

theorem memory_clear_then_read_zero_holds :
    0 < MEMORY_SIZE ∧ Memory.new_empty.clear.read 0 = some 0 :=
  ⟨by decide, memory_clear_then_read_zero Memory.new_empty 0 (by decide)⟩

/-- C10: for a BIOS of the valid 512 KB length, the guard
`offset + 4 >= BIOS_FILE_SIZE` does not make the byte accesses safe: for
every offset strictly above `BIOS_FILE_SIZE - 4` the index `offset + 3`
is past the buffer and `read_word` hits the out-of-bounds branch (and
for `offset >= BIOS_FILE_SIZE` the index `offset` itself is already past
the buffer); `BIOS_FILE_SIZE - 4` is the only offset at which `read_word`
returns a word. -/
theorem bios_read_word_guard_not_safe (b : BIOS)
    (hb : b.len = BIOS_FILE_SIZE) :
    (∀ offset, BIOS_FILE_SIZE - 4 < offset →
      b.len ≤ offset + 3 ∧ b.read_word offset = .indexOob) ∧
      (∀ offset, BIOS_FILE_SIZE ≤ offset → b.len ≤ offset) ∧
      (∃ w, b.read_word (BIOS_FILE_SIZE - 4) = .value w) ∧
      (∀ offset w, b.read_word offset = .value w →
        offset = BIOS_FILE_SIZE - 4) := by
  have hsize : BIOS_FILE_SIZE = 524288 := by simp [BIOS_FILE_SIZE]
  refine ⟨?_, ?_, ?_, ?_⟩
  · intro offset h
    refine ⟨by omega, ?_⟩
    rw [BIOS.read_word, if_pos (by omega), if_neg (by omega)]
  · intro offset h
    omega
  · refine ⟨b.data (BIOS_FILE_SIZE - 4) |||
      (b.data (BIOS_FILE_SIZE - 4 + 1) <<< 8) |||
      (b.data (BIOS_FILE_SIZE - 4 + 2) <<< 16) |||
      (b.data (BIOS_FILE_SIZE - 4 + 3) <<< 24), ?_⟩
    rw [BIOS.read_word, if_pos (by omega), if_pos (by omega)]
  · intro offset w hw
    rw [BIOS.read_word] at hw
    by_cases hg : BIOS_FILE_SIZE ≤ offset + 4
    · rw [if_pos hg] at hw
      by_cases hi : offset + 3 < b.len
      · rw [if_pos hi] at hw
        omega
      · rw [if_neg hi] at hw
        cases hw
    · rw [if_neg hg] at hw
      cases hw

theorem bios_read_word_guard_not_safe_holds :
    zeroBios.len = BIOS_FILE_SIZE ∧
      BIOS_FILE_SIZE - 4 < BIOS_FILE_SIZE - 3 ∧
      (zeroBios.len ≤ (BIOS_FILE_SIZE - 3) + 3 ∧
        zeroBios.read_word (BIOS_FILE_SIZE - 3) = .indexOob) :=
  ⟨rfl, by decide,
    (bios_read_word_guard_not_safe zeroBios rfl).1 (BIOS_FILE_SIZE - 3)
      (by decide)⟩
